import Mathlib

/-!
# Verification of the vocal-prime streaming analysis pipeline

Shallow embedding of the streaming components of the `vocal_prime` Python
package, and proofs of the behavioural claims about them.

Audio samples are modelled as rationals (`ℚ`); the Python code works with
float32 samples, but every claim here is about control flow, buffering
arithmetic and exact algebraic identities, none of which depend on
floating-point rounding.  Neural/signal backends (parselmouth, torchcrepe,
Melodia, Demucs) are external black boxes in the source; they are modelled
as an `Option`-valued input to each processing step (`none` = the
invocation raised an exception or produced nothing).
-/

namespace VocalPrime

/-! ## Generic list helpers shared by the embeddings -/

/-- The last `n` elements of a list (the behaviour of a `deque(maxlen=n)`
after an `append`, and of Python's `xs[-n:]` for `n > 0`). -/
def lastN (n : ℕ) (l : List α) : List α :=
  l.drop (l.length - n)

/-- Overwrite the slice `[p, p + chunk.length)` of `buf` with `chunk`
(numpy slice assignment `buf[p : p+len(chunk)] = chunk`). -/
def writeAt (buf : List ℚ) (p : ℕ) (chunk : List ℚ) : List ℚ :=
  buf.take p ++ chunk ++ buf.drop (p + chunk.length)

/-- Pointwise combination of three lists, truncating to the shortest
(elementwise numpy arithmetic on equal-length arrays). -/
def zip3With (f : ℚ → ℚ → ℚ → ℚ) : List ℚ → List ℚ → List ℚ → List ℚ
  | a :: as, b :: bs, c :: cs => f a b c :: zip3With f as bs cs
  | _, _, _ => []

/-- Sum of squares of a list (`np.sum(window ** 2)`). -/
def sumSq (l : List ℚ) : ℚ :=
  (l.map (fun x => x * x)).sum

/-! ## StreamingFormantDetector (`formants/streaming_formant.py`)

Defaults: `sample_rate = 48000`, `window_length = 0.025`,
`hop_size = 0.010`, hence `window_samples = 1200`, `hop_samples = 480`,
`buffer_size = 3 * window_samples = 3600`. -/

def window_samples : ℕ := 1200

def hop_samples : ℕ := 480

def buffer_size : ℕ := 3600

/-- RMS threshold (`energy_threshold = 0.0001`) for voice detection. -/
def energy_threshold : ℚ := 1 / 10000

/-- Exponential smoothing factor (`self.smoothing = 0.7`). -/
def smoothing : ℚ := 7 / 10

/-- The fixed-capacity rolling audio buffer inside
`StreamingFormantDetector.process_chunk` (lines 119-135): a physical
array of length `C` plus the logical write cursor `buffer_pos`. -/
structure RollingBuf where
  buf : List ℚ
  pos : ℕ
deriving DecidableEq, Repr

/-- The buffering step of `process_chunk`:

* `n ≥ C`: the buffer is replaced wholesale by `audio[-C:]`;
* else, if appending would overflow, shift left by the overflow
  (`audio_buffer[:-shift] = audio_buffer[shift:]`, which leaves the last
  `shift` physical cells stale at their old values) and decrement `pos`;
* then write the chunk at `pos` and advance `pos`. -/
def RollingBuf.push (C : ℕ) (st : RollingBuf) (chunk : List ℚ) : RollingBuf :=
  let n := chunk.length
  if C ≤ n then
    ⟨chunk.drop (n - C), C⟩
  else if C < st.pos + n then
    let s := st.pos + n - C
    let shifted := st.buf.drop s ++ st.buf.drop (C - s)
    ⟨writeAt shifted (st.pos - s) chunk, st.pos - s + n⟩
  else
    ⟨writeAt st.buf st.pos chunk, st.pos + n⟩

/-- Four tracked formant (or bandwidth) values `F1..F4` / `B1..B4`. -/
structure Formants4 where
  f1 : ℚ
  f2 : ℚ
  f3 : ℚ
  f4 : ℚ
deriving DecidableEq, Repr

/-- The all-zero `Formants4`. -/
def Formants4.zero : Formants4 := ⟨0, 0, 0, 0⟩

/-- Multiplicative decay of every field (`*= 0.9`, lines 162-165). -/
def decayF (s : Formants4) : Formants4 :=
  ⟨s.f1 * (9 / 10), s.f2 * (9 / 10), s.f3 * (9 / 10), s.f4 * (9 / 10)⟩

/-- One exponential-smoothing update
`smoothing * s + (1 - smoothing) * raw` (lines 223-226). -/
def smoothed_update (s raw : ℚ) : ℚ :=
  smoothing * s + (1 - smoothing) * raw

/-- Per-field smoothing: a field is blended only when its raw value is
strictly positive, otherwise it holds (lines 221-233). -/
def smoothF (s raw : Formants4) : Formants4 :=
  ⟨if 0 < raw.f1 then smoothed_update s.f1 raw.f1 else s.f1,
   if 0 < raw.f2 then smoothed_update s.f2 raw.f2 else s.f2,
   if 0 < raw.f3 then smoothed_update s.f3 raw.f3 else s.f3,
   if 0 < raw.f4 then smoothed_update s.f4 raw.f4 else s.f4⟩

/-- `_validate_formants` (lines 260-291): ordering check
`0 < F1 < F2 < F3`, range checks on `F1..F3`, optional range on `F4`. -/
def validate_formants (fs : Formants4) : Bool :=
  if ¬ (0 < fs.f1 ∧ fs.f1 < fs.f2 ∧ fs.f2 < fs.f3) then false
  else if ¬ ((100 : ℚ) < fs.f1 ∧ fs.f1 < 1200) then false
  else if ¬ ((500 : ℚ) < fs.f2 ∧ fs.f2 < 3000) then false
  else if ¬ ((1500 : ℚ) < fs.f3 ∧ fs.f3 < 4500) then false
  else if 0 < fs.f4 ∧ ¬ ((2500 : ℚ) < fs.f4 ∧ fs.f4 < 5500) then false
  else true

/-- The analysis window `audio_buffer[buffer_pos - window_samples :
buffer_pos]` (line 150). -/
def analysisWindow (rb : RollingBuf) : List ℚ :=
  (rb.buf.drop (rb.pos - window_samples)).take window_samples

/-- The square of the window's RMS, `np.mean(window ** 2)` (line 153).
The source computes `rms = sqrt` of this; carrying the square is exact
and determines every comparison the source makes with it. -/
def windowRmsSq (w : List ℚ) : ℚ :=
  sumSq w / (w.length : ℚ)

/-- The per-frame voiced flag `rms > energy_threshold` (line 154),
stated equivalently on squares (both sides are nonnegative). -/
def frameVoiced (w : List ℚ) : Bool :=
  decide (energy_threshold ^ 2 < windowRmsSq w)

/-- Mutable state of a `StreamingFormantDetector`. -/
structure FormantState where
  rb : RollingBuf
  samples_since_analysis : ℕ
  smoothed_formants : Formants4
  smoothed_bandwidths : Formants4
  voiced_history : List Bool
deriving DecidableEq, Repr

/-- The dict returned by `process_chunk`.  The source reports
`rms = sqrt(mean(window**2))`; we carry its square `rmsSq`, which
determines it (samples are exact here, and `rms > θ ↔ rmsSq > θ²`). -/
structure FormantResult where
  resF : Formants4
  resB : Formants4
  detected : Bool
  rmsSq : ℚ
deriving DecidableEq, Repr

/-- Initial state (`np.zeros(buffer_size)`, cursors at 0, empty history,
zero smoothed estimates). -/
def formantInit : FormantState :=
  ⟨⟨List.replicate buffer_size 0, 0⟩, 0, Formants4.zero, Formants4.zero, []⟩

/-- `StreamingFormantDetector.process_chunk` (lines 109-258).

`backend` is the outcome of the parselmouth invocation on the analysis
window: `none` models a raised exception (the `except` branch),
`some (rawF, rawB)` the extracted raw formants/bandwidths (after the
source's NaN-to-0 normalisation, which happens inside the black box). -/
def process_chunk (st : FormantState) (audio : List ℚ)
    (backend : Option (Formants4 × Formants4)) :
    FormantState × Option FormantResult :=
  let rb := st.rb.push buffer_size audio
  let since := st.samples_since_analysis + audio.length
  if rb.pos < window_samples then
    (⟨rb, since, st.smoothed_formants, st.smoothed_bandwidths, st.voiced_history⟩, none)
  else if since < hop_samples then
    (⟨rb, since, st.smoothed_formants, st.smoothed_bandwidths, st.voiced_history⟩, none)
  else
    let window := analysisWindow rb
    let rmsSq := windowRmsSq window
    let is_voiced := frameVoiced window
    let hist := lastN 3 (st.voiced_history ++ [is_voiced])
    let voice_detected := 1 ≤ hist.count true
    if ¬ voice_detected then
      let sf := decayF st.smoothed_formants
      let sb := decayF st.smoothed_bandwidths
      (⟨rb, 0, sf, sb, hist⟩, some ⟨sf, sb, false, rmsSq⟩)
    else
      match backend with
      | none =>
          -- `except` branch: state held, bandwidth fields reported as 0
          (⟨rb, 0, st.smoothed_formants, st.smoothed_bandwidths, hist⟩,
           some ⟨st.smoothed_formants, Formants4.zero, false, rmsSq⟩)
      | some (rawF, rawB) =>
          let valid := validate_formants rawF
          let sf := if valid then smoothF st.smoothed_formants rawF
                    else st.smoothed_formants
          let sb := if valid then smoothF st.smoothed_bandwidths rawB
                    else st.smoothed_bandwidths
          (⟨rb, 0, sf, sb, hist⟩,
           some ⟨sf, sb, valid && decide (0 < sf.f1), rmsSq⟩)

/-! ## TorchCREPEDetector (`pitch/streaming_pitch.py`, lines 16-144) -/

/-- Which pitch backend produced a result (`'torchcrepe'` / `'melodia'`
in the source's `algorithm` field). -/
inductive Backend where
  | crepe
  | melodia
deriving DecidableEq, Repr

/-- The dict returned by the pitch detectors. -/
structure PitchResult where
  frequency : ℚ
  confidence : ℚ
  voiced : Bool
  algorithm : Backend
deriving DecidableEq, Repr

/-- `self.min_samples = 1024`. -/
def crepe_min_samples : ℕ := 1024

/-- `fmin = 50.0`. -/
def crepe_fmin : ℚ := 50

/-- `fmax = 2000.0`. -/
def crepe_fmax : ℚ := 2000

/-- Mutable state of a `TorchCREPEDetector`: the model-loaded flag and
the growing sample buffer (`np.concatenate`, flushed whole on use). -/
structure CrepeState where
  model_loaded : Bool
  buffer : List ℚ
deriving DecidableEq, Repr

/-- Fresh detector with the model loaded. -/
def crepeInit : CrepeState := ⟨true, []⟩

/-- `TorchCREPEDetector.process_chunk` (lines 76-140).  `backend` is the
last-frame `(freq, conf)` pair extracted from the torchcrepe inference;
`none` models an exception inside the `try` block (the source then
returns `None`, with the buffer already flushed). -/
def crepe_process_chunk (st : CrepeState) (audio : List ℚ)
    (backend : Option (ℚ × ℚ)) : CrepeState × Option PitchResult :=
  if ¬ st.model_loaded then (st, none)
  else
    let buf := st.buffer ++ audio
    if buf.length < crepe_min_samples then (⟨st.model_loaded, buf⟩, none)
    else
      -- `to_process = self.buffer; self.buffer = np.zeros(0)`
      match backend with
      | none => (⟨st.model_loaded, []⟩, none)
      | some (freq, conf) =>
          let voiced := decide ((1 : ℚ) / 2 < conf) &&
            decide (crepe_fmin ≤ freq) && decide (freq ≤ crepe_fmax)
          (⟨st.model_loaded, []⟩,
           some ⟨if voiced then freq else 0, conf, voiced, Backend.crepe⟩)

/-! ## HybridPitchDetector arbitration (`pitch/streaming_pitch.py`,
lines 343-382)

The two sub-detector invocations are the black boxes here: the arbiter
is modelled as a function of each backend's availability and of the
result its `process_chunk` call would produce.  The returned `Bool`
records whether the secondary (Melodia) detector was invoked. -/

/-- `self.confidence_threshold = 0.6`. -/
def confidence_threshold : ℚ := 3 / 5

/-- The `mode == 'auto'` branch of `HybridPitchDetector.process_chunk`. -/
def hybrid_auto (crepeAvail : Bool) (crepeRes : Option PitchResult)
    (melodiaAvail : Bool) (melodiaRes : Option PitchResult) :
    Option PitchResult × Bool :=
  if crepeAvail then
    match crepeRes with
    | none => (none, false)
    | some r =>
        if r.confidence < confidence_threshold then
          if melodiaAvail then
            -- `melodia_result = self._melodia.process_chunk(audio)`
            match melodiaRes with
            | some m =>
                if r.confidence < m.confidence then (some m, true)
                else (some r, true)
            | none => (some r, true)
          else (some r, false)
        else (some r, false)
  else if melodiaAvail then (melodiaRes, false)
  else (none, false)

/-! ## StreamingSeparator overlap-add stitching
(`separation/streaming_separator.py`, lines 108-170) -/

/-- `np.linspace(0, 1, n)`: `n` evenly spaced points from 0 to 1
inclusive, i.e. `i / (n - 1)` (a single point gives `[0]`). -/
def linspace01 (n : ℕ) : List ℚ :=
  (List.range n).map
    (fun (i : ℕ) => if n ≤ 1 then 0 else (i : ℚ) / ((n : ℚ) - 1))

/-- The crossfade/stitch step of `_process_buffer` (lines 140-160),
as a function of the retained tail `output_buffer` (length
`overlap_samples`) and the new mono backend output `vocals_mono`
(length `chunk_samples = hop + overlap`).  Returns the emitted output
and the new retained tail.

The new tail is `vocals_mono[-overlap:]`; for `overlap = 0` Python's
`[-0:]` slice is the whole array, hence the special case. -/
def stitch_process (hop overlap : ℕ) (output_buffer vocals_mono : List ℚ) :
    List ℚ × List ℚ :=
  let output :=
    if 0 < overlap then
      let fade_in := linspace01 overlap
      -- blended = output_buffer * (1 - fade_in) + vocals_mono[:overlap] * fade_in
      let blended := zip3With (fun t f x => t * (1 - f) + x * f)
        output_buffer fade_in (vocals_mono.take overlap)
      (blended ++ (vocals_mono.drop overlap).take hop).take hop
    else vocals_mono.take hop
  let tail :=
    if overlap = 0 then vocals_mono
    else vocals_mono.drop (vocals_mono.length - overlap)
  (output, tail)

/-! ## AdaptiveFormantDetector (`formants/streaming_formant.py`,
lines 310-350) -/

/-- Insert into a sorted list (ascending). -/
def insertSorted (x : ℚ) : List ℚ → List ℚ
  | [] => [x]
  | y :: ys => if x ≤ y then x :: y :: ys else y :: insertSorted x ys

/-- Insertion sort (ascending); a model of the sort inside `np.median`. -/
def sortQ (l : List ℚ) : List ℚ := l.foldr insertSorted []

/-- `np.median`: middle element of the sorted list for odd length,
mean of the two middle elements for even length. -/
def npMedian (l : List ℚ) : ℚ :=
  let s := sortQ l
  let n := l.length
  if n % 2 = 1 then s.getD (n / 2) 0
  else (s.getD (n / 2 - 1) 0 + s.getD (n / 2) 0) / 2

/-- Ceilings: `male_max_formant = 5000`, `female_max_formant = 5500`,
`child_max_formant = 6000`. -/
def male_max_formant : ℚ := 5000

def female_max_formant : ℚ := 5500

def child_max_formant : ℚ := 6000

/-- The adaptive state added by `AdaptiveFormantDetector`:
`pitch_history = deque(maxlen=20)`, the current median pitch, and the
formant-frequency ceiling `max_formant_hz`. -/
structure AdaptiveState where
  pitch_history : List ℚ
  current_pitch : ℚ
  max_formant_hz : ℚ
deriving DecidableEq, Repr

/-- Initial adaptive state (default `max_formant_hz = 5500`). -/
def adaptiveInit : AdaptiveState := ⟨[], 0, 5500⟩

/-- `AdaptiveFormantDetector.set_pitch` (lines 332-349). -/
def set_pitch (st : AdaptiveState) (pitch_hz : ℚ) : AdaptiveState :=
  if 0 < pitch_hz then
    let h := lastN 20 (st.pitch_history ++ [pitch_hz])
    let med := npMedian h
    ⟨h, med,
     if 250 < med then child_max_formant
     else if 165 < med then female_max_formant
     else male_max_formant⟩
  else st

/-! ## AnalysisServer stereo-to-mono conversion (`__main__.py`,
`handle_pitch_stream` lines 442-452 and `handle_formant_stream`
lines 553-564) -/

/-- Per-frame mean of interleaved stereo:
`audio.reshape(n, 2).mean(axis=1)`. -/
def pairMeans : List ℚ → List ℚ
  | a :: b :: rest => (a + b) / 2 :: pairMeans rest
  | _ => []

/-- The handlers' conversion step: an even sample count is always
treated as interleaved stereo and averaged per frame; an odd count is
passed through unchanged. -/
def toMono (audio : List ℚ) : List ℚ :=
  if audio.length % 2 = 0 then pairMeans audio else audio

/-! ## Shared helper lemmas -/

theorem pairMeans_length : ∀ l : List ℚ, (pairMeans l).length = l.length / 2
  | [] => rfl
  | [_] => by simp [pairMeans]
  | a :: b :: rest => by
      simp only [pairMeans, List.length_cons, pairMeans_length rest]
      omega

theorem pairMeans_getD : ∀ (l : List ℚ) (i : ℕ), i < l.length / 2 →
    (pairMeans l).getD i 0 = (l.getD (2 * i) 0 + l.getD (2 * i + 1) 0) / 2
  | a :: b :: rest, 0, _ => rfl
  | a :: b :: rest, i + 1, h => by
      have hr : i < rest.length / 2 := by
        simp only [List.length_cons] at h
        omega
      have h2 : 2 * (i + 1) = (2 * i + 1) + 1 := by omega
      simp only [pairMeans, List.getD_cons_succ, h2]
      exact pairMeans_getD rest i hr
  | [], i, h => by
      simp only [List.length_nil] at h
      omega
  | [a], i, h => by
      simp only [List.length_singleton] at h
      omega

/-! ## C10 -/

/-- C10: for every chunk pushed to the streaming pitch or formant
handlers, an even decoded sample count is unconditionally reinterpreted
as interleaved stereo and replaced by the per-frame mean of the two
channels (halving its length), even when the input was genuinely mono;
only an odd-length chunk reaches the detector unchanged. -/
theorem c10_stereo_downmix (audio : List ℚ) :
    (audio.length % 2 = 0 →
      toMono audio = pairMeans audio ∧
      (toMono audio).length = audio.length / 2 ∧
      ∀ i, i < audio.length / 2 →
        (toMono audio).getD i 0 =
          (audio.getD (2 * i) 0 + audio.getD (2 * i + 1) 0) / 2) ∧
    (audio.length % 2 ≠ 0 → toMono audio = audio) := by
  constructor
  · intro he
    have ht : toMono audio = pairMeans audio := by simp [toMono, he]
    refine ⟨ht, ?_, ?_⟩
    · rw [ht, pairMeans_length]
    · intro i hi
      rw [ht]
      exact pairMeans_getD audio i hi
  · intro ho
    simp [toMono, ho]

/-- Witness for C10: `[1,3]` (even, genuinely mono data) is halved to
its pair mean `[2]`; `[1,3,5]` (odd) passes through unchanged. -/
theorem c10_stereo_downmix_witness :
    toMono [(1 : ℚ), 3] = pairMeans [(1 : ℚ), 3] ∧
    (toMono [(1 : ℚ), 3]).length = 1 ∧
    (toMono [(1 : ℚ), 3]).getD 0 0 = ((1 : ℚ) + 3) / 2 ∧
    toMono [(1 : ℚ), 3, 5] = [(1 : ℚ), 3, 5] := by
  have h1 := (c10_stereo_downmix [(1 : ℚ), 3]).1 (by decide)
  have h2 := (c10_stereo_downmix [(1 : ℚ), 3, 5]).2 (by decide)
  refine ⟨h1.1, h1.2.1, ?_, h2⟩
  have := h1.2.2 0 (by decide)
  simpa using this

/-! ## C8 -/

/-- C8 counterexample: a single observation of exactly 165 Hz gives
median 165, which lies in the claim's "165–250 Hz" mid band, yet the
code sets the low ceiling 5000 Hz, not the claimed mid ceiling 5500 Hz
(the code's test is strict: `median > 165`). -/
theorem c8_counterexample :
    npMedian [(165 : ℚ)] = 165 ∧
    (set_pitch adaptiveInit 165).max_formant_hz = 5000 ∧
    ((5000 : ℚ) ≠ 5500) := by
  refine ⟨by norm_num [npMedian, sortQ, insertSorted], ?_, by norm_num⟩
  norm_num [set_pitch, adaptiveInit, lastN, npMedian, sortQ, insertSorted,
    male_max_formant, female_max_formant, child_max_formant]

/-- C8 (amended): the controller keeps a bounded history of at most 20
strictly positive pitch observations; a non-positive observation is
ignored entirely; after a positive observation the ceiling is set from
the median of the updated history with the low band extending up to and
including 165 Hz: median ≤ 165 → 5000 Hz, 165 < median ≤ 250 → 5500 Hz,
median > 250 → 6000 Hz. -/
theorem c8_adaptive_ceiling :
    (∀ ps : List ℚ,
       (ps.foldl set_pitch adaptiveInit).pitch_history.length ≤ 20 ∧
       ∀ x ∈ (ps.foldl set_pitch adaptiveInit).pitch_history, 0 < x) ∧
    (∀ (st : AdaptiveState) (p : ℚ), p ≤ 0 → set_pitch st p = st) ∧
    (∀ (st : AdaptiveState) (p : ℚ), 0 < p →
       (set_pitch st p).pitch_history = lastN 20 (st.pitch_history ++ [p]) ∧
       ((npMedian (lastN 20 (st.pitch_history ++ [p])) ≤ 165 →
           (set_pitch st p).max_formant_hz = 5000) ∧
        (165 < npMedian (lastN 20 (st.pitch_history ++ [p])) →
           npMedian (lastN 20 (st.pitch_history ++ [p])) ≤ 250 →
           (set_pitch st p).max_formant_hz = 5500) ∧
        (250 < npMedian (lastN 20 (st.pitch_history ++ [p])) →
           (set_pitch st p).max_formant_hz = 6000))) := by
  refine ⟨?_, ?_, ?_⟩
  · intro ps
    suffices h : ∀ (st : AdaptiveState),
        st.pitch_history.length ≤ 20 → (∀ x ∈ st.pitch_history, 0 < x) →
        (ps.foldl set_pitch st).pitch_history.length ≤ 20 ∧
        ∀ x ∈ (ps.foldl set_pitch st).pitch_history, 0 < x by
      exact h adaptiveInit (by simp [adaptiveInit]) (by simp [adaptiveInit])
    induction ps with
    | nil => intro st h1 h2; exact ⟨h1, h2⟩
    | cons p ps ih =>
        intro st h1 h2
        simp only [List.foldl_cons]
        refine ih (set_pitch st p) ?_ ?_
        · unfold set_pitch
          split
          · simp only [lastN, List.length_drop]
            omega
          · exact h1
        · unfold set_pitch
          split
          · intro x hx
            simp only [lastN] at hx
            have hx' := List.mem_of_mem_drop hx
            rcases List.mem_append.1 hx' with h | h
            · exact h2 x h
            · simp only [List.mem_singleton] at h
              subst h; assumption
          · exact h2
  · intro st p hp
    unfold set_pitch
    rw [if_neg (by exact not_lt.2 hp)]
  · intro st p hp
    refine ⟨by simp [set_pitch, hp], ?_, ?_, ?_⟩
    · intro hm
      have h250 : npMedian (lastN 20 (st.pitch_history ++ [p])) ≤ 250 :=
        le_trans hm (by norm_num)
      simp [set_pitch, hp, child_max_formant, female_max_formant, male_max_formant,
        not_lt.2 hm, not_lt.2 h250]
    · intro hm1 hm2
      simp [set_pitch, hp, child_max_formant, female_max_formant, male_max_formant,
        hm1, not_lt.2 hm2]
    · intro hm
      simp [set_pitch, hp, child_max_formant, female_max_formant, male_max_formant, hm]

/-- Witness for C8: observing -1 on a fresh controller changes nothing;
observing 440 (median 440 > 250) sets the 6000 Hz ceiling; observing
160 (median 160 ≤ 165) sets the 5000 Hz ceiling. -/
theorem c8_adaptive_ceiling_witness :
    set_pitch adaptiveInit (-1) = adaptiveInit ∧
    (set_pitch adaptiveInit 440).max_formant_hz = 6000 ∧
    (set_pitch adaptiveInit 160).max_formant_hz = 5000 := by
  refine ⟨c8_adaptive_ceiling.2.1 adaptiveInit (-1) (by norm_num), ?_, ?_⟩
  · refine (c8_adaptive_ceiling.2.2 adaptiveInit 440 (by norm_num)).2.2.2 ?_
    norm_num [adaptiveInit, lastN, npMedian, sortQ, insertSorted]
  · refine (c8_adaptive_ceiling.2.2 adaptiveInit 160 (by norm_num)).2.1 ?_
    norm_num [adaptiveInit, lastN, npMedian, sortQ, insertSorted]

/-! ## C3 -/

/-- C3: in Auto mode, when the primary (CREPE) backend is available and
produces an estimate: confidence ≥ 0.6 returns the primary's estimate
without invoking the secondary; confidence < 0.6 with the secondary
available invokes the secondary as well and keeps whichever result has
the (strictly) higher confidence — the kept record carries its
producer's tag unchanged. -/
theorem c3_auto_arbitration (r : PitchResult) :
    (confidence_threshold ≤ r.confidence →
       ∀ (mAvail : Bool) (mRes : Option PitchResult),
         hybrid_auto true (some r) mAvail mRes = (some r, false)) ∧
    (r.confidence < confidence_threshold →
       ∀ m : PitchResult,
         hybrid_auto true (some r) true (some m) =
           (some (if r.confidence < m.confidence then m else r), true) ∧
         ((hybrid_auto true (some r) true (some m)).1.map
             PitchResult.algorithm) =
           some (if r.confidence < m.confidence then m.algorithm
                 else r.algorithm)) := by
  constructor
  · intro hc mAvail mRes
    simp [hybrid_auto, not_lt.2 hc]
  · intro hc m
    by_cases hrm : r.confidence < m.confidence <;>
      simp [hybrid_auto, hc, hrm]

/-- Witness for C3: a primary estimate with confidence 0.3 against a
secondary with confidence 0.8 yields the secondary's estimate, tagged
`melodia`; a primary with confidence 0.7 is returned without the
secondary being invoked. -/
theorem c3_auto_arbitration_witness :
    hybrid_auto true (some ⟨220, 3/10, true, Backend.crepe⟩) true
        (some ⟨220, 8/10, true, Backend.melodia⟩) =
      (some ⟨220, 8/10, true, Backend.melodia⟩, true) ∧
    hybrid_auto true (some ⟨220, 7/10, true, Backend.crepe⟩) true none =
      (some ⟨220, 7/10, true, Backend.crepe⟩, false) := by
  constructor
  · have := ((c3_auto_arbitration ⟨220, 3/10, true, Backend.crepe⟩).2
      (by norm_num [confidence_threshold]) ⟨220, 8/10, true, Backend.melodia⟩).1
    rw [this]
    norm_num
  · exact (c3_auto_arbitration ⟨220, 7/10, true, Backend.crepe⟩).1
      (by norm_num [confidence_threshold]) true none

/-! ## C1 -/

theorem writeAt_length (buf chunk : List ℚ) (p : ℕ)
    (h : p + chunk.length ≤ buf.length) :
    (writeAt buf p chunk).length = buf.length := by
  simp only [writeAt, List.length_append, List.length_take, List.length_drop]
  omega

/-- The write cursor after a push is `min (pos + n) C`. -/
theorem RollingBuf.push_pos (C : ℕ) (st : RollingBuf) (chunk : List ℚ) :
    (st.push C chunk).pos = min (st.pos + chunk.length) C := by
  unfold RollingBuf.push
  dsimp only
  split_ifs with h1 h2 <;> dsimp only <;> omega

/-- C1 counterexample: the CREPE detector (`min_samples = 1024`,
`hop_length = 480`) emits nothing on the second of two 480-sample
pushes from a fresh state — 960 accumulated samples are below 1024, and
the claim's `W=1024, H=480` example ("one window only after the second
push") fails.  The backend value is irrelevant: the gate never fires. -/
theorem c1_counterexample :
    (crepe_process_chunk
        (crepe_process_chunk crepeInit (List.replicate 480 0)
          (some (100, 9 / 10))).1
        (List.replicate 480 0) (some (100, 9 / 10))).2 = none := by
  have h1 : (crepe_process_chunk crepeInit (List.replicate 480 0)
      (some (100, 9 / 10))).1 = ⟨true, List.replicate 480 0⟩ := by
    unfold crepe_process_chunk crepeInit
    dsimp only
    rw [if_neg (by simp), if_pos (by norm_num [crepe_min_samples])]
    rw [List.nil_append]
  rw [h1]
  unfold crepe_process_chunk
  dsimp only
  rw [if_neg (by simp), if_pos (by norm_num [crepe_min_samples])]

/-- C1 (amended): for the formant detector, `process_chunk` returns
non-None iff, after the chunk is appended, the accumulated valid
samples (`min (pos + n) C`) are at least `W = 1200` and the samples
since the last emission are at least `H = 480`; the counter is reset to
0 exactly on emission and accumulates otherwise.  The CREPE detector,
by contrast, flushes its whole buffer on every emission, so (with the
model loaded and inference succeeding) it emits iff the samples
accumulated since the last emission reach `1024`; consequently pushing
2000 samples in one call yields one window, while pushing 480 samples
then 480 more yields no window on either detector (960 is below both
1024 and 1200). -/
theorem c1_window_emission :
    (∀ (st : FormantState) (audio : List ℚ)
       (backend : Option (Formants4 × Formants4)),
       ((process_chunk st audio backend).2.isSome = true ↔
          (window_samples ≤ min (st.rb.pos + audio.length) buffer_size ∧
           hop_samples ≤ st.samples_since_analysis + audio.length)) ∧
       ((process_chunk st audio backend).2.isSome = true →
          (process_chunk st audio backend).1.samples_since_analysis = 0) ∧
       ((process_chunk st audio backend).2 = none →
          (process_chunk st audio backend).1.samples_since_analysis =
            st.samples_since_analysis + audio.length)) ∧
    (∀ (st : CrepeState) (audio : List ℚ) (freq conf : ℚ),
       st.model_loaded = true →
       ((crepe_process_chunk st audio (some (freq, conf))).2.isSome = true ↔
          crepe_min_samples ≤ st.buffer.length + audio.length) ∧
       ((crepe_process_chunk st audio (some (freq, conf))).2.isSome = true →
          (crepe_process_chunk st audio (some (freq, conf))).1.buffer = [])) := by
  constructor
  · intro st audio backend
    have hpos := RollingBuf.push_pos buffer_size st.rb audio
    rcases backend with _ | ⟨rf, rbw⟩ <;>
    · unfold process_chunk
      dsimp only
      split_ifs <;>
        refine ⟨by dsimp only; simp; omega,
          fun h => by first | rfl | simp at h,
          fun h => by first | rfl | simp at h⟩
  · intro st audio freq conf hl
    unfold crepe_process_chunk
    dsimp only
    rw [if_neg (by simp [hl])]
    by_cases h : (st.buffer ++ audio).length < crepe_min_samples
    · rw [if_pos h]
      simp only [List.length_append] at h
      exact ⟨by simp; omega, by simp⟩
    · rw [if_neg h]
      simp only [List.length_append] at h
      exact ⟨by simp; omega, fun _ => rfl⟩

set_option maxRecDepth 40000 in
/-- Witness for C1: a fresh formant detector emits on a single
2000-sample push (2000 ≥ 1200 and 2000 ≥ 480) and resets its counter to
0; a fresh CREPE detector emits on a single 2000-sample push; a single
480-sample push emits nothing and leaves the formant counter at 480. -/
theorem c1_window_emission_witness :
    (process_chunk formantInit (List.replicate 2000 0) none).2.isSome = true ∧
    (process_chunk formantInit (List.replicate 2000 0) none).1.samples_since_analysis = 0 ∧
    (crepe_process_chunk crepeInit (List.replicate 2000 0)
      (some (100, 9 / 10))).2.isSome = true ∧
    (process_chunk formantInit (List.replicate 480 0) none).2.isSome = false ∧
    (process_chunk formantInit (List.replicate 480 0) none).1.samples_since_analysis = 480 := by
  have hf := (c1_window_emission.1 formantInit (List.replicate 2000 0) none)
  have hc := (c1_window_emission.2 crepeInit (List.replicate 2000 0) (100) (9 / 10) rfl)
  have hf480 := (c1_window_emission.1 formantInit (List.replicate 480 0) none)
  have hp0 : formantInit.rb.pos = 0 := rfl
  have hs0 : formantInit.samples_since_analysis = 0 := rfl
  have hb0 : crepeInit.buffer = [] := rfl
  have e1 : (process_chunk formantInit (List.replicate 2000 0) none).2.isSome = true :=
    hf.1.mpr (by simp only [List.length_replicate, hp0, hs0]; decide)
  have e2 : (crepe_process_chunk crepeInit (List.replicate 2000 0)
      (some (100, 9 / 10))).2.isSome = true :=
    hc.1.mpr (by simp only [List.length_replicate, hb0]; decide)
  have e3 : (process_chunk formantInit (List.replicate 480 0) none).2.isSome = false := by
    rw [Bool.eq_false_iff]
    intro hcon
    exact absurd (hf480.1.mp hcon)
      (by simp only [List.length_replicate, hp0, hs0]; decide)
  have e4 : (process_chunk formantInit (List.replicate 480 0) none).2 = none := by
    cases hop : (process_chunk formantInit (List.replicate 480 0) none).2 with
    | none => rfl
    | some v => rw [Bool.eq_false_iff] at e3; exact absurd (by rw [hop]; rfl) e3
  refine ⟨e1, hf.2.1 e1, e2, e3, ?_⟩
  rw [hf480.2.2 e4]
  simp only [List.length_replicate, hs0]

/-! ## C2 -/

/-- The physical buffer length and cursor bound are preserved by one
push. -/
theorem RollingBuf.push_wf (C : ℕ) (st : RollingBuf) (chunk : List ℚ)
    (hl : st.buf.length = C) (hp : st.pos ≤ C) :
    (st.push C chunk).buf.length = C ∧ (st.push C chunk).pos ≤ C := by
  unfold RollingBuf.push
  dsimp only
  split_ifs with h h2
  · constructor
    · simp only [List.length_drop]
      omega
    · dsimp only
      omega
  · constructor
    · rw [writeAt_length _ _ _
        (by simp only [List.length_append, List.length_drop]; omega)]
      simp only [List.length_append, List.length_drop]
      omega
    · dsimp only
      omega
  · constructor
    · rw [writeAt_length _ _ _ (by omega)]
      exact hl
    · dsimp only
      omega

/-- C2: over every sequence of pushed chunks of arbitrary sizes the
rolling buffer's physical size stays exactly `C` and the write cursor
stays in `[0, C]`; a chunk of length ≥ `C` replaces the buffer
wholesale with its trailing `C` samples; an append that would overflow
shifts the valid region left by the overflow amount, so the valid
samples afterwards are the old valid samples minus the oldest
`overflow` ones, followed by the chunk. -/
theorem c2_rolling_buffer :
    (∀ chunks : List (List ℚ),
       (chunks.foldl (fun (st : RollingBuf) c => st.push buffer_size c)
           ⟨List.replicate buffer_size 0, 0⟩).buf.length = buffer_size ∧
       (chunks.foldl (fun (st : RollingBuf) c => st.push buffer_size c)
           ⟨List.replicate buffer_size 0, 0⟩).pos ≤ buffer_size) ∧
    (∀ (st : RollingBuf) (chunk : List ℚ), buffer_size ≤ chunk.length →
       (st.push buffer_size chunk).buf =
         chunk.drop (chunk.length - buffer_size) ∧
       (st.push buffer_size chunk).pos = buffer_size) ∧
    (∀ (st : RollingBuf) (chunk : List ℚ),
       st.buf.length = buffer_size → st.pos ≤ buffer_size →
       chunk.length < buffer_size → buffer_size < st.pos + chunk.length →
       (st.push buffer_size chunk).pos = buffer_size ∧
       (st.push buffer_size chunk).buf.take (st.push buffer_size chunk).pos =
         (st.buf.take st.pos).drop (st.pos + chunk.length - buffer_size) ++
           chunk) := by
  refine ⟨?_, ?_, ?_⟩
  · intro chunks
    suffices h : ∀ st : RollingBuf, st.buf.length = buffer_size →
        st.pos ≤ buffer_size →
        (chunks.foldl (fun (st : RollingBuf) c => st.push buffer_size c) st).buf.length =
          buffer_size ∧
        (chunks.foldl (fun (st : RollingBuf) c => st.push buffer_size c) st).pos ≤
          buffer_size by
      exact h ⟨List.replicate buffer_size 0, 0⟩
        (by simp only [List.length_replicate]) (by dsimp only; omega)
    induction chunks with
    | nil => intro st h1 h2; exact ⟨h1, h2⟩
    | cons c cs ih =>
        intro st h1 h2
        simp only [List.foldl_cons]
        have := RollingBuf.push_wf buffer_size st c h1 h2
        exact ih _ this.1 this.2
  · intro st chunk h
    unfold RollingBuf.push
    dsimp only
    refine ⟨?_, ?_⟩
    · rw [if_pos h]
    · rw [if_pos h]
  · intro st chunk hl hp hsmall hover
    unfold RollingBuf.push
    dsimp only
    refine ⟨?_, ?_⟩
    · rw [if_neg (by omega), if_pos (by omega)]
      dsimp only
      omega
    · rw [if_neg (by omega), if_pos (by omega)]
      dsimp only
      set s := st.pos + chunk.length - buffer_size with hs
      have hsle : s ≤ st.pos := by omega
      have hslt : s < buffer_size := by omega
      have hshl : (st.buf.drop s ++ st.buf.drop (buffer_size - s)).length =
          buffer_size := by
        simp only [List.length_append, List.length_drop]
        omega
      -- the written buffer has full length C and pos' = C, so `take pos'` is everything
      have hwlen : (writeAt (st.buf.drop s ++ st.buf.drop (buffer_size - s))
          (st.pos - s) chunk).length = buffer_size := by
        rw [writeAt_length _ _ _ (by rw [hshl]; omega)]
        exact hshl
      have hposC : st.pos - s + chunk.length = buffer_size := by omega
      rw [hposC, List.take_of_length_le (le_of_eq hwlen)]
      unfold writeAt
      rw [hposC, List.drop_eq_nil_of_le (le_of_eq hshl), List.append_nil]
      -- (drop s ++ stale).take (pos - s) = (take pos).drop s
      rw [List.take_append_of_le_length (by simp only [List.length_drop]; omega),
        List.drop_take]

set_option maxRecDepth 40000 in
/-- Witness for C2: a fresh buffer after pushing 2000 then 3000 samples
(total overflow) has physical length 3600 and cursor 3600; a 4000-sample
chunk replaces a buffer wholesale with its trailing 3600 samples; a
3000-sample push onto a buffer at cursor 2000 overflows by 1400 and
keeps the newest samples. -/
theorem c2_rolling_buffer_witness :
    ([List.replicate 2000 (1 : ℚ), List.replicate 3000 2].foldl
        (fun (st : RollingBuf) c => st.push buffer_size c)
        ⟨List.replicate buffer_size 0, 0⟩).pos ≤ buffer_size ∧
    (RollingBuf.push buffer_size ⟨List.replicate 3600 (0 : ℚ), 0⟩
        (List.replicate 4000 5)).buf =
      (List.replicate 4000 (5 : ℚ)).drop 400 ∧
    (RollingBuf.push buffer_size ⟨List.replicate 3600 (0 : ℚ), 2000⟩
        (List.replicate 3000 7)).buf.take
        (RollingBuf.push buffer_size ⟨List.replicate 3600 (0 : ℚ), 2000⟩
          (List.replicate 3000 7)).pos =
      ((List.replicate 3600 (0 : ℚ)).take 2000).drop 1400 ++
        List.replicate 3000 7 := by
    refine ⟨(c2_rolling_buffer.1 _).2, ?_, ?_⟩
    · have h := (c2_rolling_buffer.2.1 ⟨List.replicate 3600 (0 : ℚ), 0⟩
        (List.replicate 4000 5)
        (by rw [List.length_replicate]; decide)).1
      rw [List.length_replicate] at h
      rw [(by decide : 4000 - buffer_size = 400)] at h
      exact h
    · have h := (c2_rolling_buffer.2.2 ⟨List.replicate 3600 (0 : ℚ), 2000⟩
        (List.replicate 3000 7)
        (by show (List.replicate 3600 (0 : ℚ)).length = buffer_size;
            rw [List.length_replicate]; norm_num [buffer_size])
        (by show 2000 ≤ buffer_size; norm_num [buffer_size])
        (by rw [List.length_replicate]; norm_num [buffer_size])
        (by rw [List.length_replicate]; norm_num [buffer_size])).2
      rw [List.length_replicate] at h
      rw [(by norm_num [buffer_size] : 2000 + 3000 - buffer_size = 1400)] at h
      exact h

/-! ## C6 and C7: overlap-add stitching -/

theorem zip3With_length (f : ℚ → ℚ → ℚ → ℚ) :
    ∀ as bs cs : List ℚ,
      (zip3With f as bs cs).length = min as.length (min bs.length cs.length)
  | [], bs, cs => by simp [zip3With]
  | a :: as, [], cs => by simp [zip3With]
  | a :: as, b :: bs, [] => by simp [zip3With]
  | a :: as, b :: bs, c :: cs => by
      simp only [zip3With, List.length_cons, zip3With_length f as bs cs]
      omega

theorem zip3With_getD (f : ℚ → ℚ → ℚ → ℚ) :
    ∀ (as bs cs : List ℚ) (i : ℕ), i < as.length → i < bs.length →
      i < cs.length →
      (zip3With f as bs cs).getD i 0 =
        f (as.getD i 0) (bs.getD i 0) (cs.getD i 0)
  | a :: as, b :: bs, c :: cs, 0, _, _, _ => rfl
  | a :: as, b :: bs, c :: cs, i + 1, ha, hb, hc => by
      simp only [zip3With, List.getD_cons_succ]
      exact zip3With_getD f as bs cs i (by simpa using ha) (by simpa using hb)
        (by simpa using hc)
  | [], _, _, i, ha, _, _ => by simp at ha
  | _ :: _, [], _, i, _, hb, _ => by simp at hb
  | _ :: _, _ :: _, [], i, _, _, hc => by simp at hc

theorem linspace01_length (n : ℕ) : (linspace01 n).length = n := by
  unfold linspace01
  rw [List.length_map, List.length_range]

theorem linspace01_getD (n i : ℕ) (h : i < n) :
    (linspace01 n).getD i 0 =
      if n ≤ 1 then 0 else (i : ℚ) / ((n : ℚ) - 1) := by
  rw [List.getD_eq_getElem _ _ (by rw [linspace01_length]; exact h)]
  unfold linspace01
  rw [List.getElem_map, List.getElem_range]

theorem getD_take_of_lt (l : List ℚ) (n i : ℕ) (hi : i < n)
    (hl : i < l.length) :
    (l.take n).getD i 0 = l.getD i 0 := by
  rw [List.getD_eq_getElem _ _ (by simp only [List.length_take]; omega),
    List.getElem_take, ← List.getD_eq_getElem l 0 hl]

theorem getD_drop_add (l : List ℚ) (n i : ℕ) (h : n + i < l.length) :
    (l.drop n).getD i 0 = l.getD (n + i) 0 := by
  rw [List.getD_eq_getElem _ _ (by simp only [List.length_drop]; omega),
    List.getElem_drop, ← List.getD_eq_getElem l 0 h]

/-- C6 counterexample: with `overlap = 2`, retained tail `[1, 1]` and an
all-zero new segment, the code's crossfade (numpy `linspace(0,1,2)`,
i.e. weights `i/(overlap-1)`) gives `output[1] = 0`, while the claim's
formula `tail[1]·(1 - 1/overlap·1) + new[1]·(1/overlap·1)` gives `1/2`. -/
theorem c6_counterexample :
    (stitch_process 4 2 [1, 1] [0, 0, 0, 0, 0, 0]).1.getD 1 0 = 0 ∧
    (1 : ℚ) * (1 - 1 / 2) + 0 * (1 / 2) = 1 / 2 ∧ ((0 : ℚ) ≠ 1 / 2) := by
  refine ⟨?_, by norm_num, by norm_num⟩
  norm_num [stitch_process, linspace01, zip3With, List.range_succ]

/-- C6 (amended): for a stitch with `0 < overlap ≤ hop`, a retained
tail of length `overlap` and a new segment of length `hop + overlap`:
the output has exactly `hopSamples` samples; within the overlap region
`output[i] = tail[i]·(1 - i/(overlap-1)) + new[i]·(i/(overlap-1))`
(numpy `linspace(0,1,overlap)` weights, endpoints included; weight 0
when `overlap = 1`); the remainder of the output is
`new[overlap : hop]` — the concatenation with `new[overlap : hop+overlap]`
is truncated to `hopSamples`, so the final `overlap` samples of that
slice are not emitted; and after the call the retained tail equals the
last `overlap` samples of the new segment. -/
theorem c6_stitch_characterisation (hop overlap : ℕ) (tail new : List ℚ)
    (hov : 0 < overlap) (hoh : overlap ≤ hop)
    (ht : tail.length = overlap) (hn : new.length = hop + overlap) :
    (stitch_process hop overlap tail new).1.length = hop ∧
    (∀ i, i < overlap →
      (stitch_process hop overlap tail new).1.getD i 0 =
        tail.getD i 0 *
            (1 - (if overlap ≤ 1 then 0 else (i : ℚ) / ((overlap : ℚ) - 1))) +
          new.getD i 0 *
            (if overlap ≤ 1 then 0 else (i : ℚ) / ((overlap : ℚ) - 1))) ∧
    (∀ i, overlap ≤ i → i < hop →
      (stitch_process hop overlap tail new).1.getD i 0 = new.getD i 0) ∧
    (stitch_process hop overlap tail new).2 =
      new.drop (new.length - overlap) := by
  have hblen : (zip3With (fun t f x => t * (1 - f) + x * f) tail
      (linspace01 overlap) (new.take overlap)).length = overlap := by
    rw [zip3With_length]
    simp only [linspace01_length, List.length_take, ht, hn]
    omega
  unfold stitch_process
  dsimp only
  rw [if_pos hov, if_neg (by omega : ¬ overlap = 0)]
  have hrestlen : ((new.drop overlap).take hop).length = hop := by
    simp only [List.length_take, List.length_drop, hn]
    omega
  refine ⟨?_, ?_, ?_, rfl⟩
  · simp only [List.length_take, List.length_append, hblen, hrestlen]
    omega
  · intro i hi
    rw [getD_take_of_lt _ _ _ (by omega)
        (by simp only [List.length_append, hblen, hrestlen]; omega),
      List.getD_append _ _ _ _ (by rw [hblen]; omega),
      zip3With_getD _ _ _ _ _ (by omega) (by rw [linspace01_length]; omega)
        (by simp only [List.length_take, hn]; omega),
      linspace01_getD _ _ hi,
      getD_take_of_lt _ _ _ hi (by omega)]
  · intro i hi1 hi2
    rw [getD_take_of_lt _ _ _ (by omega)
        (by simp only [List.length_append, hblen, hrestlen]; omega),
      List.getD_append_right _ _ _ _ (by rw [hblen]; omega),
      hblen,
      getD_take_of_lt _ _ _ (by omega)
        (by simp only [List.length_drop, hn]; omega),
      getD_drop_add _ _ _ (by omega),
      Nat.add_sub_cancel' hi1]

/-- Witness for C6: with `hop = 4`, `overlap = 2`, tail `[8, 8]` and new
segment `[2, 6, 3, 4, 5, 9]`: the output is 4 samples long, its overlap
region is `[8·1 + 2·0, 8·0 + 6·1] = [8, 6]`, its remainder is
`new[2:4] = [3, 4]`, and the new retained tail is `[5, 9]`. -/
theorem c6_stitch_characterisation_witness :
    (stitch_process 4 2 [8, 8] [2, 6, 3, 4, 5, 9]).1.length = 4 ∧
    (stitch_process 4 2 [8, 8] [2, 6, 3, 4, 5, 9]).1.getD 1 0 =
      (8 : ℚ) * (1 - 1 / (2 - 1)) + 6 * (1 / (2 - 1)) ∧
    (stitch_process 4 2 [8, 8] [2, 6, 3, 4, 5, 9]).1.getD 2 0 = 3 ∧
    (stitch_process 4 2 [8, 8] [2, 6, 3, 4, 5, 9]).2 = [5, 9] := by
  have h := c6_stitch_characterisation 4 2 [8, 8] [2, 6, 3, 4, 5, 9]
    (by norm_num) (by norm_num) (by norm_num) (by norm_num)
  refine ⟨h.1, ?_, ?_, ?_⟩
  · have h2 := h.2.1 1 (by norm_num)
    rw [h2]
    norm_num
  · have h3 := h.2.2.1 2 (by norm_num) (by norm_num)
    rw [h3]
    norm_num
  · have h4 := h.2.2.2
    rw [h4]
    norm_num

/-- C7: crossfade continuity — with `overlap = 256`, `hop = 512`, if the
retained tail is constantly `v` and the head of the new segment is
constantly `v` over the overlap region, every sample of the stitched
output within the overlap region equals `v`. -/
theorem c7_crossfade_continuity (v : ℚ) (rest : List ℚ) :
    ((stitch_process 512 256 (List.replicate 256 v)
        (List.replicate 256 v ++ rest)).1).take 256 =
      List.replicate 256 v := by
  have hfade : ∀ (l : List ℚ) (n : ℕ), n = l.length →
      zip3With (fun t f x => t * (1 - f) + x * f) (List.replicate n v) l
        (List.replicate n v) = List.replicate n v := by
    intro l
    induction l with
    | nil => intro n hn; subst hn; rfl
    | cons b bs ih =>
        intro n hn
        subst hn
        simp only [List.length_cons, List.replicate_succ, zip3With]
        rw [show v * (1 - b) + v * b = v by ring, ih bs.length rfl]
  unfold stitch_process
  dsimp only
  rw [if_pos (by norm_num : (0 : ℕ) < 256)]
  rw [List.take_append_of_le_length
      (le_of_eq (List.length_replicate 256 v).symm)]
  rw [List.take_of_length_le (le_of_eq (List.length_replicate 256 v))]
  rw [hfade (linspace01 256) 256 (linspace01_length 256).symm]
  rw [List.take_take]
  rw [(by norm_num : (256 : ℕ) ⊓ 512 = 256)]
  rw [List.take_append_of_le_length
      (le_of_eq (List.length_replicate 256 v).symm)]
  exact List.take_of_length_le (le_of_eq (List.length_replicate 256 v))

/-! ## C9: backend failure handling -/

theorem sumSq_replicate_zero (n : ℕ) : sumSq (List.replicate n 0) = 0 := by
  unfold sumSq
  rw [List.map_replicate]
  simp

/-- Pushing a whole buffer's worth of silence takes the fast
(wholesale-replacement) path. -/
theorem push_silent (st : RollingBuf) :
    st.push buffer_size (List.replicate buffer_size 0) =
      ⟨List.replicate buffer_size 0, buffer_size⟩ := by
  unfold RollingBuf.push
  dsimp only
  rw [if_pos (le_of_eq (List.length_replicate buffer_size (0 : ℚ)).symm)]
  rw [List.length_replicate, Nat.sub_self, List.drop_zero]

theorem analysisWindow_silent :
    analysisWindow ⟨List.replicate buffer_size 0, buffer_size⟩ =
      List.replicate window_samples 0 := by
  unfold analysisWindow
  dsimp only
  rw [List.drop_replicate, List.take_replicate]
  congr 1

theorem windowRmsSq_silent :
    windowRmsSq (List.replicate window_samples 0) = 0 := by
  unfold windowRmsSq
  rw [sumSq_replicate_zero, zero_div]

theorem frameVoiced_silent :
    frameVoiced (List.replicate window_samples 0) = false := by
  unfold frameVoiced
  rw [windowRmsSq_silent]
  norm_num [energy_threshold]

/-- A silent full-buffer push on a state whose recent history keeps the
vote voiced, with a failing backend, reaches the `except` branch: the
stored smoothed estimates are held, and the result carries the held
formants with zeroed bandwidth fields and `detected = false`. -/
theorem process_chunk_silent_voiced_none (st : FormantState)
    (h : 1 ≤ (lastN 3 (st.voiced_history ++ [false])).count true) :
    process_chunk st (List.replicate buffer_size 0) none =
      (⟨⟨List.replicate buffer_size 0, buffer_size⟩, 0, st.smoothed_formants,
        st.smoothed_bandwidths, lastN 3 (st.voiced_history ++ [false])⟩,
       some ⟨st.smoothed_formants, Formants4.zero, false, 0⟩) := by
  unfold process_chunk
  dsimp only
  rw [push_silent st.rb, analysisWindow_silent, frameVoiced_silent,
    windowRmsSq_silent]
  dsimp only
  rw [if_neg (by norm_num [buffer_size, window_samples])]
  rw [if_neg (by rw [List.length_replicate]; simp [buffer_size, hop_samples])]
  first
    | rfl
    | rw [if_neg (not_not_intro h)]

/-- A state mid-stream: full silent buffer, smoothed estimates held from
earlier voiced analysis, recent history all voiced. -/
def voicedState : FormantState :=
  ⟨⟨List.replicate buffer_size 0, buffer_size⟩, 0,
   ⟨500, 1500, 2500, 3500⟩, ⟨100, 110, 120, 130⟩, [true, true, true]⟩

/-- C9 counterexample: on a backend failure the returned degraded result
reports every bandwidth field as 0 even though the stored smoothed
bandwidths (here `B1 = 100`) are nonzero and held — so the result does
not carry "the held smoothed values" for the bandwidth fields. -/
theorem c9_counterexample :
    (process_chunk voicedState (List.replicate buffer_size 0)
        none).1.smoothed_bandwidths.f1 = 100 ∧
    (process_chunk voicedState (List.replicate buffer_size 0) none).2 =
      some ⟨⟨500, 1500, 2500, 3500⟩, Formants4.zero, false, 0⟩ ∧
    Formants4.zero.f1 = (0 : ℚ) ∧ ((0 : ℚ) ≠ 100) := by
  have h := process_chunk_silent_voiced_none voicedState (by decide)
  rw [h]
  refine ⟨rfl, rfl, rfl, by norm_num⟩

/-- C9 (amended): whenever an analysis window is evaluated with voice
detected and the backend invocation fails, the failure is absorbed
within that chunk's processing: the call is total (no exception
propagates in the model), the stored smoothed formants and bandwidths
are left exactly as they were, and a well-formed degraded result with
`detected = false` is returned that carries the held smoothed formant
frequencies but reports the bandwidth fields as zero. -/
theorem c9_backend_failure (st : FormantState) (audio : List ℚ)
    (hw : window_samples ≤ (st.rb.push buffer_size audio).pos)
    (hh : hop_samples ≤ st.samples_since_analysis + audio.length)
    (hv : 1 ≤ (lastN 3 (st.voiced_history ++
      [frameVoiced (analysisWindow (st.rb.push buffer_size audio))])).count
        true) :
    process_chunk st audio none =
      (⟨st.rb.push buffer_size audio, 0, st.smoothed_formants,
        st.smoothed_bandwidths,
        lastN 3 (st.voiced_history ++
          [frameVoiced (analysisWindow (st.rb.push buffer_size audio))])⟩,
       some ⟨st.smoothed_formants, Formants4.zero, false,
         windowRmsSq (analysisWindow (st.rb.push buffer_size audio))⟩) := by
  unfold process_chunk
  dsimp only
  rw [if_neg (not_lt.2 hw), if_neg (not_lt.2 hh), if_neg (not_not_intro hv)]

/-- Witness for C9: on `voicedState` with a silent push and a failing
backend, the stored smoothed estimates are unchanged and the result
holds `F1..F4 = 500,1500,2500,3500` with `detected = false`. -/
theorem c9_backend_failure_witness :
    process_chunk voicedState (List.replicate buffer_size 0) none =
      (⟨⟨List.replicate buffer_size 0, buffer_size⟩, 0,
        ⟨500, 1500, 2500, 3500⟩, ⟨100, 110, 120, 130⟩,
        [true, true, false]⟩,
       some ⟨⟨500, 1500, 2500, 3500⟩, Formants4.zero, false, 0⟩) := by
  have h := c9_backend_failure voicedState (List.replicate buffer_size 0)
    (by rw [push_silent]; norm_num [buffer_size, window_samples])
    (by rw [List.length_replicate]; simp [buffer_size, hop_samples])
    (by rw [push_silent, analysisWindow_silent, frameVoiced_silent]; decide)
  rw [h, push_silent, analysisWindow_silent, frameVoiced_silent,
    windowRmsSq_silent]
  rfl

/-! ## C5: exponential smoothing update -/

/-- C5: on every voiced analysis step whose backend produced raw
estimates, with `α = smoothing = 0.7`: if the raw set passes validation,
each tracked field whose raw value is strictly positive is updated to
`α·smoothed + (1-α)·raw` and each field whose raw value is zero or
negative holds its previous value; if the raw set fails validation
(invalid estimate), every field holds its previous value. -/
theorem c5_smoother_update (st : FormantState) (audio : List ℚ)
    (rawF rawB : Formants4)
    (hw : window_samples ≤ (st.rb.push buffer_size audio).pos)
    (hh : hop_samples ≤ st.samples_since_analysis + audio.length)
    (hv : 1 ≤ (lastN 3 (st.voiced_history ++
      [frameVoiced (analysisWindow (st.rb.push buffer_size audio))])).count
        true) :
    smoothing = 7 / 10 ∧
    (validate_formants rawF = true →
      (process_chunk st audio (some (rawF, rawB))).1.smoothed_formants =
        ⟨if 0 < rawF.f1 then
            smoothing * st.smoothed_formants.f1 + (1 - smoothing) * rawF.f1
          else st.smoothed_formants.f1,
         if 0 < rawF.f2 then
            smoothing * st.smoothed_formants.f2 + (1 - smoothing) * rawF.f2
          else st.smoothed_formants.f2,
         if 0 < rawF.f3 then
            smoothing * st.smoothed_formants.f3 + (1 - smoothing) * rawF.f3
          else st.smoothed_formants.f3,
         if 0 < rawF.f4 then
            smoothing * st.smoothed_formants.f4 + (1 - smoothing) * rawF.f4
          else st.smoothed_formants.f4⟩ ∧
      (process_chunk st audio (some (rawF, rawB))).1.smoothed_bandwidths =
        ⟨if 0 < rawB.f1 then
            smoothing * st.smoothed_bandwidths.f1 + (1 - smoothing) * rawB.f1
          else st.smoothed_bandwidths.f1,
         if 0 < rawB.f2 then
            smoothing * st.smoothed_bandwidths.f2 + (1 - smoothing) * rawB.f2
          else st.smoothed_bandwidths.f2,
         if 0 < rawB.f3 then
            smoothing * st.smoothed_bandwidths.f3 + (1 - smoothing) * rawB.f3
          else st.smoothed_bandwidths.f3,
         if 0 < rawB.f4 then
            smoothing * st.smoothed_bandwidths.f4 + (1 - smoothing) * rawB.f4
          else st.smoothed_bandwidths.f4⟩) ∧
    (validate_formants rawF = false →
      (process_chunk st audio (some (rawF, rawB))).1.smoothed_formants =
        st.smoothed_formants ∧
      (process_chunk st audio (some (rawF, rawB))).1.smoothed_bandwidths =
        st.smoothed_bandwidths) := by
  refine ⟨rfl, ?_, ?_⟩
  · intro hval
    unfold process_chunk
    dsimp only
    rw [if_neg (not_lt.2 hw), if_neg (not_lt.2 hh), if_neg (not_not_intro hv),
      hval]
    dsimp only
    unfold smoothF smoothed_update
    exact ⟨rfl, rfl⟩
  · intro hval
    unfold process_chunk
    dsimp only
    rw [if_neg (not_lt.2 hw), if_neg (not_lt.2 hh), if_neg (not_not_intro hv),
      hval]
    dsimp only
    exact ⟨rfl, rfl⟩

/-- Witness for C5: on `voicedState` (smoothed formants
`500,1500,2500,3500`, bandwidths `100,110,120,130`) a valid raw estimate
`600,1600,2600,0` with bandwidths `50,60,0,-1` blends the positive
fields (`0.7·500 + 0.3·600 = 530`, …) and holds `F4` (raw 0), `B3`
(raw 0) and `B4` (raw negative); an invalid raw estimate (`F1 > F2`)
leaves every field unchanged. -/
theorem c5_smoother_update_witness :
    (process_chunk voicedState (List.replicate buffer_size 0)
        (some (⟨600, 1600, 2600, 0⟩, ⟨50, 60, 0, -1⟩))).1.smoothed_formants =
      ⟨530, 1530, 2530, 3500⟩ ∧
    (process_chunk voicedState (List.replicate buffer_size 0)
        (some (⟨600, 1600, 2600, 0⟩, ⟨50, 60, 0, -1⟩))).1.smoothed_bandwidths =
      ⟨85, 95, 120, 130⟩ ∧
    (process_chunk voicedState (List.replicate buffer_size 0)
        (some (⟨700, 600, 2600, 0⟩, ⟨50, 60, 0, -1⟩))).1.smoothed_formants =
      ⟨500, 1500, 2500, 3500⟩ := by
  have hw : window_samples ≤
      (voicedState.rb.push buffer_size (List.replicate buffer_size 0)).pos := by
    rw [push_silent]
    norm_num [buffer_size, window_samples]
  have hh : hop_samples ≤
      voicedState.samples_since_analysis +
        (List.replicate buffer_size (0 : ℚ)).length := by
    rw [List.length_replicate, (rfl : voicedState.samples_since_analysis = 0)]
    norm_num [buffer_size, hop_samples]
  have hv : 1 ≤ (lastN 3 (voicedState.voiced_history ++
      [frameVoiced (analysisWindow
        (voicedState.rb.push buffer_size (List.replicate buffer_size 0)))])).count
        true := by
    rw [push_silent, analysisWindow_silent, frameVoiced_silent]
    decide
  have h1 := c5_smoother_update voicedState (List.replicate buffer_size 0)
    ⟨600, 1600, 2600, 0⟩ ⟨50, 60, 0, -1⟩ hw hh hv
  have h2 := c5_smoother_update voicedState (List.replicate buffer_size 0)
    ⟨700, 600, 2600, 0⟩ ⟨50, 60, 0, -1⟩ hw hh hv
  have hval1 : validate_formants ⟨600, 1600, 2600, 0⟩ = true := by
    norm_num [validate_formants]
  have hval2 : validate_formants ⟨700, 600, 2600, 0⟩ = false := by
    norm_num [validate_formants]
  refine ⟨?_, ?_, (h2.2.2 hval2).1⟩
  · rw [(h1.2.1 hval1).1]
    norm_num [smoothing, voicedState]
  · rw [(h1.2.1 hval1).2]
    norm_num [smoothing, voicedState]

/-! ## C4: voice-gate decay -/

/-- Every field scaled by `c` (on the right, as the source's `*= 0.9`). -/
def scaleF (c : ℚ) (s : Formants4) : Formants4 :=
  ⟨s.f1 * c, s.f2 * c, s.f3 * c, s.f4 * c⟩

/-- The trajectory of a detector fed one full buffer of silence per
call, with the backend never consulted (the unvoiced gate short-circuits
it), starting from smoothed estimates `sf`, `sb`. -/
def silentTraj (sf sb : Formants4) : ℕ → FormantState
  | 0 => ⟨⟨List.replicate buffer_size 0, 0⟩, 0, sf, sb, []⟩
  | n + 1 =>
      (process_chunk (silentTraj sf sb n) (List.replicate buffer_size 0)
        none).1

/-- The eight tracked smoothed fields of a detector state. -/
def trackedFields (st : FormantState) : List ℚ :=
  [st.smoothed_formants.f1, st.smoothed_formants.f2,
   st.smoothed_formants.f3, st.smoothed_formants.f4,
   st.smoothed_bandwidths.f1, st.smoothed_bandwidths.f2,
   st.smoothed_bandwidths.f3, st.smoothed_bandwidths.f4]

theorem scaleF_one (s : Formants4) : scaleF 1 s = s := by
  cases s
  simp [scaleF]

theorem decayF_scaleF (p : ℚ) (s : Formants4) :
    decayF (scaleF p s) = scaleF (p * (9 / 10)) s := by
  cases s
  simp [decayF, scaleF, mul_assoc]

theorem lastN_replicate (n m : ℕ) (b : Bool) :
    lastN n (List.replicate m b) = List.replicate (min n m) b := by
  unfold lastN
  rw [List.length_replicate, List.drop_replicate]
  congr 1
  omega

/-- The unvoiced analysis step: every smoothed field decays by `0.9`. -/
theorem process_chunk_unvoiced (st : FormantState) (audio : List ℚ)
    (backend : Option (Formants4 × Formants4))
    (hw : window_samples ≤ (st.rb.push buffer_size audio).pos)
    (hh : hop_samples ≤ st.samples_since_analysis + audio.length)
    (hc : (lastN 3 (st.voiced_history ++
      [frameVoiced (analysisWindow (st.rb.push buffer_size audio))])).count
        true = 0) :
    process_chunk st audio backend =
      (⟨st.rb.push buffer_size audio, 0, decayF st.smoothed_formants,
        decayF st.smoothed_bandwidths,
        lastN 3 (st.voiced_history ++
          [frameVoiced (analysisWindow (st.rb.push buffer_size audio))])⟩,
       some ⟨decayF st.smoothed_formants, decayF st.smoothed_bandwidths,
         false,
         windowRmsSq (analysisWindow (st.rb.push buffer_size audio))⟩) := by
  unfold process_chunk
  dsimp only
  rw [if_neg (not_lt.2 hw), if_neg (not_lt.2 hh), if_pos (by omega)]

/-- Closed form of the silent trajectory: after `n` silent evaluations
every smoothed field is its start value times `0.9 ^ n`, and the voiced
history holds the last `min n 3` (all-false) frame flags. -/
theorem silentTraj_state (sf sb : Formants4) : ∀ n : ℕ,
    silentTraj sf sb n =
      ⟨⟨List.replicate buffer_size 0, if n = 0 then 0 else buffer_size⟩, 0,
       scaleF ((9 / 10) ^ n) sf, scaleF ((9 / 10) ^ n) sb,
       List.replicate (min n 3) false⟩
  | 0 => by
      show FormantState.mk ⟨List.replicate buffer_size 0, 0⟩ 0 sf sb [] = _
      rw [pow_zero, scaleF_one, scaleF_one, if_pos rfl,
        (by norm_num : (0 ⊓ 3 : ℕ) = 0), List.replicate_zero]
  | n + 1 => by
      show (process_chunk (silentTraj sf sb n)
          (List.replicate buffer_size 0) none).1 = _
      rw [silentTraj_state sf sb n]
      rw [process_chunk_unvoiced _ _ _
        (by rw [push_silent]; norm_num [buffer_size, window_samples])
        (by rw [List.length_replicate]; norm_num [buffer_size, hop_samples])
        (by rw [push_silent, analysisWindow_silent, frameVoiced_silent,
              ← List.replicate_succ', lastN_replicate,
              List.count_replicate]
            norm_num)]
      dsimp only
      rw [push_silent, analysisWindow_silent, frameVoiced_silent,
        ← List.replicate_succ', lastN_replicate,
        decayF_scaleF, decayF_scaleF, ← pow_succ]
      rw [if_neg (Nat.succ_ne_zero n)]
      congr 2
      omega

theorem trackedFields_silentTraj (sf sb : Formants4) (n i : ℕ) :
    (trackedFields (silentTraj sf sb n)).getD i 0 =
      ([sf.f1, sf.f2, sf.f3, sf.f4, sb.f1, sb.f2, sb.f3, sb.f4].getD i 0) *
        (9 / 10) ^ n := by
  rw [silentTraj_state]
  rcases i with _ | _ | _ | _ | _ | _ | _ | _ | i <;>
    simp [trackedFields, scaleF]

/-- C4: (i) whenever an analysis window is evaluated and voice is not
detected (no `true` among the last three per-frame flags, the current
frame included), every tracked smoothed formant and bandwidth field is
multiplied by exactly 0.9 and a well-formed degraded result carrying
those decayed values with `detected = false` is returned; (ii) after
`n` consecutive silent (hence unvoiced) evaluations each field equals
`0.9 ^ n` times its starting value; (iii) each field's magnitude is
non-increasing in `n`; and (iv) each field tends to 0 as `n → ∞`. -/
theorem c4_unvoiced_decay :
    (∀ s : Formants4, decayF s =
      ⟨s.f1 * (9 / 10), s.f2 * (9 / 10), s.f3 * (9 / 10),
       s.f4 * (9 / 10)⟩) ∧
    (∀ (st : FormantState) (audio : List ℚ)
       (backend : Option (Formants4 × Formants4)),
      window_samples ≤ (st.rb.push buffer_size audio).pos →
      hop_samples ≤ st.samples_since_analysis + audio.length →
      (lastN 3 (st.voiced_history ++
        [frameVoiced (analysisWindow (st.rb.push buffer_size audio))])).count
          true = 0 →
      process_chunk st audio backend =
        (⟨st.rb.push buffer_size audio, 0, decayF st.smoothed_formants,
          decayF st.smoothed_bandwidths,
          lastN 3 (st.voiced_history ++
            [frameVoiced (analysisWindow (st.rb.push buffer_size audio))])⟩,
         some ⟨decayF st.smoothed_formants, decayF st.smoothed_bandwidths,
           false,
           windowRmsSq (analysisWindow (st.rb.push buffer_size audio))⟩)) ∧
    (∀ (sf sb : Formants4) (n : ℕ),
      (silentTraj sf sb n).smoothed_formants = scaleF ((9 / 10) ^ n) sf ∧
      (silentTraj sf sb n).smoothed_bandwidths = scaleF ((9 / 10) ^ n) sb) ∧
    (∀ (sf sb : Formants4) (n i : ℕ),
      |(trackedFields (silentTraj sf sb (n + 1))).getD i 0| ≤
        |(trackedFields (silentTraj sf sb n)).getD i 0|) ∧
    (∀ (sf sb : Formants4) (i : ℕ),
      Filter.Tendsto
        (fun n => (trackedFields (silentTraj sf sb n)).getD i 0)
        Filter.atTop (nhds 0)) := by
  refine ⟨fun s => rfl, process_chunk_unvoiced, ?_, ?_, ?_⟩
  · intro sf sb n
    rw [silentTraj_state]
    exact ⟨rfl, rfl⟩
  · intro sf sb n i
    rw [trackedFields_silentTraj sf sb (n + 1) i,
      trackedFields_silentTraj sf sb n i, abs_mul, abs_mul]
    apply mul_le_mul_of_nonneg_left _ (abs_nonneg _)
    rw [abs_pow, abs_pow, abs_of_pos (by norm_num : (0 : ℚ) < 9 / 10)]
    exact pow_le_pow_of_le_one (by norm_num) (by norm_num) (Nat.le_succ n)
  · intro sf sb i
    simp only [trackedFields_silentTraj sf sb _ i]
    have h : Filter.Tendsto (fun n : ℕ => ((9 : ℚ) / 10) ^ n)
        Filter.atTop (nhds 0) :=
      tendsto_pow_atTop_nhds_zero_of_lt_one (by norm_num) (by norm_num)
    simpa using h.const_mul
      ([sf.f1, sf.f2, sf.f3, sf.f4, sb.f1, sb.f2, sb.f3, sb.f4].getD i 0)

/-- A state with nonzero smoothed estimates whose recent history is
unvoiced. -/
def unvoicedState : FormantState :=
  ⟨⟨List.replicate buffer_size 0, buffer_size⟩, 0,
   ⟨100, 200, 300, 400⟩, ⟨10, 20, 30, 40⟩, [false]⟩

/-- Witness for C4: a silent push on `unvoicedState` decays every field
by 0.9 (`100 → 90`, …, `40 → 36`) and returns those values with
`detected = false`. -/
theorem c4_unvoiced_decay_witness :
    process_chunk unvoicedState (List.replicate buffer_size 0) none =
      (⟨⟨List.replicate buffer_size 0, buffer_size⟩, 0,
        ⟨90, 180, 270, 360⟩, ⟨9, 18, 27, 36⟩, [false, false]⟩,
       some ⟨⟨90, 180, 270, 360⟩, ⟨9, 18, 27, 36⟩, false, 0⟩) := by
  have h := c4_unvoiced_decay.2.1 unvoicedState
    (List.replicate buffer_size 0) none
    (by rw [push_silent]; norm_num [buffer_size, window_samples])
    (by rw [List.length_replicate,
          (rfl : unvoicedState.samples_since_analysis = 0)]
        norm_num [buffer_size, hop_samples])
    (by rw [push_silent, analysisWindow_silent, frameVoiced_silent]; decide)
  rw [h, push_silent, analysisWindow_silent, frameVoiced_silent,
    windowRmsSq_silent]
  norm_num [decayF, unvoicedState, lastN]

end VocalPrime
